import Mathlib

/-!
Verification of the furigana alignment core of the `auto-jrubby` repository.

The repository contains three Rust crates (`src/lib.rs`, `wasm-plugins/ipadic/src/lib.rs`,
`wasm-plugins/unidic/src/lib.rs`).  Strings are modelled as lists of natural numbers:
for the character-level functions (`hira_to_kata`, `is_kanji`, `build_ruby_segments`,
`reconstruct_orthography`) each `Nat` is a Unicode scalar value (Rust `char`); for the
`analyze` annotation loops each `Nat` is a text unit of the input sequence and the
tokenizer's byte offsets are modelled as indices into that sequence (the tokenizer
aligns token boundaries to character boundaries, so `String::from_utf8_lossy` on the
sliced ranges is the identity decode and is modelled as such).

Rust definitions are translated one-to-one; loops with mutable state become folds over
an explicit state.
-/

namespace AutoJrubby

/-- The `"*"` sentinel string (`'*'` is U+002A): the "no reading" / "not applicable"
marker used throughout the dictionaries. -/
def starS : List Nat := [42]

/-- `hira_to_kata` from the Rust sources (identical in all three crates): a codepoint in
the letter-forming hiragana range U+3041..U+3096 is shifted by +0x60 into the katakana
block; anything else is returned unchanged.  (The Rust `char::from_u32(..).unwrap()` is
total here because the shifted range U+30A1..U+30F6 consists of valid scalar values.) -/
def hira_to_kata (c : Nat) : Nat :=
  if 0x3041 ≤ c ∧ c ≤ 0x3096 then c + 0x60 else c

/-- `is_hiragana` from `wasm-plugins/unidic/src/lib.rs`: the hiragana block U+3040..U+309F. -/
def is_hiragana (c : Nat) : Bool :=
  decide (0x3040 ≤ c ∧ c ≤ 0x309F)

/-- `is_kanji` from `wasm-plugins/unidic/src/lib.rs`: CJK Unified Ideographs, Extension A
and Extension B ranges. -/
def is_kanji (c : Nat) : Bool :=
  decide ((0x4E00 ≤ c ∧ c ≤ 0x9FFF) ∨ (0x3400 ≤ c ∧ c ≤ 0x4DBF) ∨
    (0x20000 ≤ c ∧ c ≤ 0x2A6DF))

/-- `contains_kanji` from `wasm-plugins/unidic/src/lib.rs`. -/
def contains_kanji (s : List Nat) : Bool := s.any is_kanji

/-- One ruby segment: `struct RubySegment { text, ruby }` (identical in all crates). -/
structure RubySegment where
  text : List Nat
  ruby : List Nat
  deriving DecidableEq, Repr

/-- First index of `x` in a list, `Iterator::position` in the Rust sources. -/
def position (x : Nat) : List Nat → Option Nat
  | [] => none
  | y :: ys => if y = x then some 0 else (position x ys).map (· + 1)

/-- The Rust slice `l[a..b]` (well-defined whenever `a ≤ b ∧ b ≤ l.length`; the callers
below only evaluate it under that guard, and the checked variants make the bound checks
explicit). -/
def listSlice (l : List Nat) (a b : Nat) : List Nat := (l.drop a).take (b - a)

/-- One iteration of the `for &s_char in &sur_chars` loop of `build_ruby_segments`
(identical in all three crates).  State: `(segments, buffer_s, r_idx)`. -/
def brsStep (read : List Nat) :
    List RubySegment × List Nat × Nat → Nat → List RubySegment × List Nat × Nat
  | (segments, buffer_s, r_idx), s_char =>
    let s_kata := hira_to_kata s_char
    if s_char ≠ s_kata ∧ r_idx < read.length then
      match position s_kata (read.drop r_idx) with
      | some pos_in_remaining =>
        let kanji_reading_len := pos_in_remaining
        let segments' :=
          if buffer_s ≠ [] then
            if r_idx + kanji_reading_len ≤ read.length then
              segments ++ [⟨buffer_s, listSlice read r_idx (r_idx + kanji_reading_len)⟩]
            else segments
          else segments
        (segments' ++ [⟨[s_char], []⟩], [], r_idx + kanji_reading_len + 1)
      | none => (segments, buffer_s ++ [s_char], r_idx)
    else (segments, buffer_s ++ [s_char], r_idx)

/-- The full scan loop of `build_ruby_segments`: fold `brsStep` over the surface
characters starting from the empty state. -/
def brsScan (read sur : List Nat) : List RubySegment × List Nat × Nat :=
  sur.foldl (brsStep read) ([], [], 0)

/-- `build_ruby_segments` from the Rust sources (`src/lib.rs` lines 50-115; the copies in
`wasm-plugins/ipadic` and `wasm-plugins/unidic` are character-for-character identical):
fast path for the `"*"` sentinel or an identity reading, then the anchor scan, then the
final flush of the pending buffer with whatever remains of the reading. -/
def build_ruby_segments (surface reading : List Nat) : List RubySegment :=
  if reading = starS ∨ surface = reading then [⟨surface, []⟩]
  else
    let st := brsScan reading surface
    if st.2.1 ≠ [] then
      st.1 ++ [⟨st.2.1, if st.2.2 < reading.length then reading.drop st.2.2 else []⟩]
    else st.1

/-- Concatenation of the `text` fields of a segment list. -/
def textConcat (segs : List RubySegment) : List Nat := (segs.map RubySegment.text).flatten

/-- `reconstruct_orthography`'s backward scan (`wasm-plugins/unidic/src/lib.rs` lines
85-115), expressed on the reversed character lists: arguments are the reversed surface,
the reversed phonetic reading and the accumulated tail; the result is the unconsumed
reversed phonetic part together with the reconstructed tail. -/
def reconTail : List Nat → List Nat → List Nat → List Nat × List Nat
  | s_char :: s_rest, p_char :: p_rest, tail =>
    if is_kanji s_char then (p_char :: p_rest, tail)
    else
      let s_kata := hira_to_kata s_char
      if s_kata = p_char ∨ (p_char = 0x30FC ∧ is_hiragana s_char) then
        reconTail s_rest p_rest (s_kata :: tail)
      else (p_char :: p_rest, tail)
  | _, p_rev, tail => (p_rev, tail)

/-- `reconstruct_orthography` from `wasm-plugins/unidic/src/lib.rs` lines 76-125: scan
backwards while the surface kana (katakana-converted) matches the phonetic character
exactly or matches the long-vowel mark `ー` (U+30FC); stop at a kanji or a mismatch;
result is the remaining phonetic head followed by the reconstructed tail. -/
def reconstruct_orthography (surface phonetic : List Nat) : List Nat :=
  let r := reconTail surface.reverse phonetic.reverse []
  r.1.reverse ++ r.2

/-- The unguarded variant of `brsStep`: identical except that the bound check
`end_idx <= read_chars.len()` in front of the anchor flush is removed.  Comparing it
with `brsStep` shows that the guard in the source is always true. -/
def brsStepU (read : List Nat) :
    List RubySegment × List Nat × Nat → Nat → List RubySegment × List Nat × Nat
  | (segments, buffer_s, r_idx), s_char =>
    let s_kata := hira_to_kata s_char
    if s_char ≠ s_kata ∧ r_idx < read.length then
      match position s_kata (read.drop r_idx) with
      | some pos_in_remaining =>
        let kanji_reading_len := pos_in_remaining
        let segments' :=
          if buffer_s ≠ [] then
            segments ++ [⟨buffer_s, listSlice read r_idx (r_idx + kanji_reading_len)⟩]
          else segments
        (segments' ++ [⟨[s_char], []⟩], [], r_idx + kanji_reading_len + 1)
      | none => (segments, buffer_s ++ [s_char], r_idx)
    else (segments, buffer_s ++ [s_char], r_idx)

/-- Checked model of the Rust suffix slice `&l[a..]`: `none` models the panic when the
start index is past the end. -/
def suffixSlice (l : List Nat) (a : Nat) : Option (List Nat) :=
  if a ≤ l.length then some (l.drop a) else none

/-- Checked model of the Rust slice `&l[a..b]`: `none` models the out-of-range panic. -/
def checkedSlice (l : List Nat) (a b : Nat) : Option (List Nat) :=
  if a ≤ b ∧ b ≤ l.length then some (listSlice l a b) else none

/-- `brsStep` with every Rust slice expression replaced by its checked model: `none`
models a panic inside the loop body. -/
def brsStepC (read : List Nat) :
    List RubySegment × List Nat × Nat → Nat → Option (List RubySegment × List Nat × Nat)
  | (segments, buffer_s, r_idx), s_char =>
    let s_kata := hira_to_kata s_char
    if s_char ≠ s_kata ∧ r_idx < read.length then
      match suffixSlice read r_idx with
      | none => none
      | some remaining_reading =>
        match position s_kata remaining_reading with
        | some pos_in_remaining =>
          let kanji_reading_len := pos_in_remaining
          let flushed : Option (List RubySegment) :=
            if buffer_s ≠ [] then
              if r_idx + kanji_reading_len ≤ read.length then
                match checkedSlice read r_idx (r_idx + kanji_reading_len) with
                | none => none
                | some kanji_reading => some (segments ++ [⟨buffer_s, kanji_reading⟩])
              else some segments
            else some segments
          match flushed with
          | none => none
          | some segments' =>
            some (segments' ++ [⟨[s_char], []⟩], [], r_idx + kanji_reading_len + 1)
        | none => some (segments, buffer_s ++ [s_char], r_idx)
    else some (segments, buffer_s ++ [s_char], r_idx)

/-- `build_ruby_segments` with every slice checked: `none` models a panic anywhere in
the function.  Proving it equal to `some (build_ruby_segments surface reading)` shows
the Rust function never reads out of bounds. -/
def build_ruby_segments_checked (surface reading : List Nat) :
    Option (List RubySegment) :=
  if reading = starS ∨ surface = reading then some [⟨surface, []⟩]
  else
    match surface.foldlM (brsStepC reading) ([], [], 0) with
    | none => none
    | some st =>
      if st.2.1 ≠ [] then
        if st.2.2 < reading.length then
          match suffixSlice reading st.2.2 with
          | none => none
          | some remaining_ruby => some (st.1 ++ [⟨st.2.1, remaining_ruby⟩])
        else some (st.1 ++ [⟨st.2.1, []⟩])
      else some st.1

/-- The reading selection of the unidic `analyze` (`wasm-plugins/unidic/src/lib.rs`
lines 260-267): take field 9 (phonological surface) unless it is absent or the `"*"`
sentinel, in which case fall back to field 6 (lemma reading), defaulting to `"*"`. -/
def unidic_select_reading (details : List (List Nat)) : List Nat :=
  match Option.filter (fun s => s != starS) (details.get? 9) with
  | some v => v
  | none => (details.get? 6).getD starS

/-- Modelled from the spec: the Reading Source Selector for the richer (17-field)
schema as the spec describes it (§4.2), which is not what the code does.  The spec's
words: first read the conjugation-type field (field 4 of the 17-field unidic layout);
if it is not the "not applicable" sentinel (inflected word) prefer the phonological
surface field (field 9), otherwise prefer the lemma reading field (field 6); a
preferred field equal to the sentinel falls back to the lemma reading field. -/
def unidic_select_reading_spec (details : List (List Nat)) : List Nat :=
  let ctype := (details.get? 4).getD starS
  let lform := (details.get? 6).getD starS
  let preferred := if ctype ≠ starS then (details.get? 9).getD starS else lform
  if preferred ≠ starS then preferred else lform

/-- The per-token ruby computation of the unidic `analyze`
(`wasm-plugins/unidic/src/lib.rs` lines 250-278): kana-only gate, reading selection,
orthography reconstruction, then segmentation. -/
def unidic_token_ruby (surface : List Nat) (details : List (List Nat)) :
    List RubySegment :=
  if !contains_kanji surface then [⟨surface, []⟩]
  else
    let phonetic := unidic_select_reading details
    let final_reading :=
      if phonetic = starS then starS else reconstruct_orthography surface phonetic
    build_ruby_segments surface final_reading

/-- The per-token ruby computation of the ipadic `analyze`
(`wasm-plugins/ipadic/src/lib.rs` lines 167-174): field 7 is the reading, defaulting to
`"*"`; there is no kana-only gate. -/
def ipadic_token_ruby (surface : List Nat) (details : List (List Nat)) :
    List RubySegment :=
  build_ruby_segments surface ((details.get? 7).getD starS)

/-- A tokenizer token as consumed by `analyze`: offsets into the input sequence, the
surface it covers, and its dictionary detail fields.  The tokenizer itself is external
to the repository; `analyze` only consumes this interface. -/
structure Token where
  byte_start : Nat
  byte_end : Nat
  surface : List Nat
  details : List (List Nat)
  deriving DecidableEq, Repr

/-- `struct TokenInfo` of the two wasm plugins: surface, flat detail list, ruby. -/
structure TokenInfo where
  surface : List Nat
  details : List (List Nat)
  ruby_segments : List RubySegment
  deriving DecidableEq, Repr

/-- `struct TokenInfo` of the root crate `src/lib.rs`: named metadata fields instead of
a flat list, and no gap synthesis around it. -/
structure RootTokenInfo where
  surface : List Nat
  pos : List Nat
  sub_pos : List Nat
  reading : List Nat
  base : List Nat
  ruby_segments : List RubySegment
  deriving DecidableEq, Repr

/-- The token annotation built by the ipadic `analyze` for one tokenizer token. -/
def ipadic_token_info (t : Token) : TokenInfo :=
  ⟨t.surface, t.details, ipadic_token_ruby t.surface t.details⟩

/-- The token annotation built by the unidic `analyze` for one tokenizer token. -/
def unidic_token_info (t : Token) : TokenInfo :=
  ⟨t.surface, t.details, unidic_token_ruby t.surface t.details⟩

/-- The token annotation built by the root crate's `analyze` (`src/lib.rs` lines
130-148): `get_detail(i)` is `details.get(i).unwrap_or("*")`. -/
def root_token_info (t : Token) : RootTokenInfo :=
  ⟨t.surface, (t.details.get? 0).getD starS, (t.details.get? 1).getD starS,
    (t.details.get? 7).getD starS, (t.details.get? 6).getD starS,
    build_ruby_segments t.surface ((t.details.get? 7).getD starS)⟩

/-- The root crate's `analyze` result list (`src/lib.rs` lines 130-148): a plain map
over the tokenizer tokens, with no gap synthesis. -/
def root_analyze_annotations (tokens : List Token) : List RootTokenInfo :=
  tokens.map root_token_info

/-- The codepoints of `"Whitespace"`. -/
def wsMarker : List Nat := [87, 104, 105, 116, 101, 115, 112, 97, 99, 101]

/-- The gap-token detail list of the the plugins' `analyze`: `n` copies of `"*"` with
field 0 overwritten by `"Whitespace"`. -/
def gapDetails (n : Nat) : List (List Nat) := (List.replicate n starS).set 0 wsMarker

/-- The token/gap interleaving loop shared by the two plugin `analyze` functions
(`wasm-plugins/ipadic/src/lib.rs` lines 141-200, `wasm-plugins/unidic/src/lib.rs` lines
221-304), parameterized by the per-token annotation builder `mk` and the gap detail
list `gd`: before each token whose start is past the cursor, a gap annotation covering
`[cursor, byte_start)` is emitted, and after the last token a final gap annotation
covers whatever remains of the text. -/
def annotateLoop (mk : Token → TokenInfo) (gd : List (List Nat)) (text : List Nat) :
    Nat → List Token → List TokenInfo
  | cursor, [] =>
    if cursor < text.length then
      [⟨text.drop cursor, gd, [⟨text.drop cursor, []⟩]⟩]
    else []
  | cursor, t :: ts =>
    (if t.byte_start > cursor then
      [⟨listSlice text cursor t.byte_start, gd,
        [⟨listSlice text cursor t.byte_start, []⟩]⟩]
    else []) ++ mk t :: annotateLoop mk gd text t.byte_end ts

/-- The full annotation list of the ipadic plugin `analyze` (9-field gap details). -/
def ipadic_annotations (text : List Nat) (tokens : List Token) : List TokenInfo :=
  annotateLoop ipadic_token_info (gapDetails 9) text 0 tokens

/-- The full annotation list of the unidic plugin `analyze` (17-field gap details). -/
def unidic_annotations (text : List Nat) (tokens : List Token) : List TokenInfo :=
  annotateLoop unidic_token_info (gapDetails 17) text 0 tokens

/-- Concatenation of the `surface` fields of an annotation list. -/
def surfaceConcat (l : List TokenInfo) : List Nat := (l.map TokenInfo.surface).flatten

/-- Concatenation of the `surface` fields of a root-crate annotation list. -/
def surfaceConcatRoot (l : List RootTokenInfo) : List Nat :=
  (l.map RootTokenInfo.surface).flatten

/-- Well-formedness of the external tokenizer's output, starting from cursor `c`: the
tokens are ordered, lie inside the text, and each token's surface is exactly the slice
of the text it covers.  This is the interface contract §6 assumes of the out-of-scope
tokenizer. -/
def chainOKb (text : List Nat) : Nat → List Token → Bool
  | _, [] => true
  | c, t :: ts =>
    decide (c ≤ t.byte_start) && decide (t.byte_start ≤ t.byte_end) &&
      decide (t.byte_end ≤ text.length) &&
      (t.surface == listSlice text t.byte_start t.byte_end) && chainOKb text t.byte_end ts

/-- The request payload `struct InputParams` of the plugin crates. -/
structure InputParams where
  text : List Nat
  user_dict_csv : Option (List Nat)

/-- The bytes of `"Error: "`. -/
def errMark : List Nat := [69, 114, 114, 111, 114, 58, 32]

/-- The bytes of `"Invalid JSON: "`. -/
def msgInvalidJson : List Nat :=
  [73, 110, 118, 97, 108, 105, 100, 32, 74, 83, 79, 78, 58, 32]

/-- The bytes of `"Failed to build user dictionary: "`. -/
def msgUserDict : List Nat :=
  [70, 97, 105, 108, 101, 100, 32, 116, 111, 32, 98, 117, 105, 108, 100, 32, 117, 115,
    101, 114, 32, 100, 105, 99, 116, 105, 111, 110, 97, 114, 121, 58, 32]

/-- The bytes of `"Tokenization failed: "`. -/
def msgTokenize : List Nat :=
  [84, 111, 107, 101, 110, 105, 122, 97, 116, 105, 111, 110, 32, 102, 97, 105, 108,
    101, 100, 58, 32]

/-- The bytes of `"Serialization failed: "`. -/
def msgSerialize : List Nat :=
  [83, 101, 114, 105, 97, 108, 105, 122, 97, 116, 105, 111, 110, 32, 102, 97, 105, 108,
    101, 100, 58, 32]

/-- The user-dictionary step of the plugin `analyze`: the compiler `build_ud` is only
invoked when the optional `user_dict_csv` field is present. -/
def userDictOutcome (build_ud : List Nat → Except (List Nat) Unit) (p : InputParams) :
    Except (List Nat) Unit :=
  match p.user_dict_csv with
  | some csv => build_ud csv
  | none => Except.ok ()

/-- The ipadic plugin's `analyze` (`wasm-plugins/ipadic/src/lib.rs` lines 115-206) with
its external fallible collaborators (JSON parsing, user-dictionary compilation,
tokenization, response encoding) passed as explicit parameters; each `Except.error`
carries the collaborator's message bytes.  Success and failure share the single
`List Nat` return channel, exactly as the Rust function returns `Vec<u8>` in every
branch. -/
def analyze_model (parse : Except (List Nat) InputParams)
    (build_ud : List Nat → Except (List Nat) Unit)
    (tokenize : List Nat → Except (List Nat) (List Token))
    (encode : List TokenInfo → Except (List Nat) (List Nat)) : List Nat :=
  match parse with
  | Except.error e => errMark ++ (msgInvalidJson ++ e)
  | Except.ok params =>
    match userDictOutcome build_ud params with
    | Except.error e => errMark ++ (msgUserDict ++ e)
    | Except.ok _ =>
      match tokenize params.text with
      | Except.error e => errMark ++ (msgTokenize ++ e)
      | Except.ok tokens =>
        match encode (annotateLoop ipadic_token_info (gapDetails 9) params.text 0 tokens) with
        | Except.error e => errMark ++ (msgSerialize ++ e)
        | Except.ok bytes => bytes

theorem position_lt {x : Nat} {l : List Nat} {p : Nat}
    (h : position x l = some p) : p < l.length := by
  induction l generalizing p with
  | nil => simp [position] at h
  | cons y ys ih =>
    rw [position] at h
    split at h
    · cases h
      simp
    · rcases Option.map_eq_some'.mp h with ⟨q, hq, rfl⟩
      have := ih hq
      simp
      omega

theorem textConcat_append (a b : List RubySegment) :
    textConcat (a ++ b) = textConcat a ++ textConcat b := by
  simp [textConcat]

/-- One loop iteration extends the text covered by emitted segments plus the pending
buffer by exactly the consumed surface character. -/
theorem brsStep_text (read : List Nat) (st : List RubySegment × List Nat × Nat)
    (c : Nat) :
    textConcat (brsStep read st c).1 ++ (brsStep read st c).2.1 =
      textConcat st.1 ++ st.2.1 ++ [c] := by
  obtain ⟨segs, buf, i⟩ := st
  simp only [brsStep]
  split
  · rename_i hcond
    split
    · rename_i p hp
      split
      · rename_i hbuf
        split
        · rename_i hguard
          simp [textConcat, List.append_assoc]
        · rename_i hguard
          exfalso
          have hlt := position_lt hp
          rw [List.length_drop] at hlt
          omega
      · rename_i hbuf
        simp only [ne_eq, not_not] at hbuf
        subst hbuf
        simp [textConcat]
    · simp [List.append_assoc]
  · simp [List.append_assoc]

/-- Scan invariant: after folding over any surface suffix, the emitted segment text
plus the pending buffer equals the initial segment text, initial buffer and the
consumed characters. -/
theorem brsScan_text (read : List Nat) :
    ∀ (sur : List Nat) (st : List RubySegment × List Nat × Nat),
      textConcat (sur.foldl (brsStep read) st).1 ++
          (sur.foldl (brsStep read) st).2.1 =
        textConcat st.1 ++ st.2.1 ++ sur := by
  intro sur
  induction sur with
  | nil => intro st; simp
  | cons c rest ih =>
    intro st
    rw [List.foldl_cons, ih (brsStep read st c), brsStep_text]
    simp [List.append_assoc]

/-- C1: for every surface string and every reading string, concatenating the `text`
fields of all segments returned by `build_ruby_segments(surface, reading)`, in order,
equals `surface` exactly, with no loss or duplication.  (The function is identical in
`src/lib.rs` and the two wasm plugins.) -/
theorem segment_text_coverage (surface reading : List Nat) :
    textConcat (build_ruby_segments surface reading) = surface := by
  have h : textConcat (brsScan reading surface).1 ++ (brsScan reading surface).2.1 =
      surface := by
    have := brsScan_text reading surface ([], [], 0)
    simpa [brsScan, textConcat] using this
  unfold build_ruby_segments
  split
  · simp [textConcat]
  · dsimp only
    split
    · rw [textConcat_append]
      simpa [textConcat] using h
    · rename_i hbuf
      simp only [ne_eq, not_not] at hbuf
      rw [hbuf] at h
      simpa using h

/-- One loop iteration only emits segments with non-empty text (flushes are guarded by
`!buffer_s.is_empty()` and the standalone kana segment carries one character). -/
theorem brsStep_text_nonempty (read : List Nat)
    (st : List RubySegment × List Nat × Nat) (c : Nat)
    (hsegs : ∀ seg ∈ st.1, seg.text ≠ []) :
    ∀ seg ∈ (brsStep read st c).1, seg.text ≠ [] := by
  obtain ⟨segs, buf, i⟩ := st
  simp only [brsStep]
  split
  · split
    · rename_i p hp
      intro seg hseg
      dsimp only at hseg
      rcases List.mem_append.mp hseg with hseg | hseg
      · split at hseg
        · rename_i hbuf
          split at hseg
          · rcases List.mem_append.mp hseg with hseg | hseg
            · exact hsegs seg hseg
            · rcases List.mem_singleton.mp hseg with rfl
              exact hbuf
          · exact hsegs seg hseg
        · exact hsegs seg hseg
      · rcases List.mem_singleton.mp hseg with rfl
        simp
    · exact hsegs
  · exact hsegs

theorem brsScan_text_nonempty (read : List Nat) :
    ∀ (sur : List Nat) (st : List RubySegment × List Nat × Nat),
      (∀ seg ∈ st.1, seg.text ≠ []) →
      ∀ seg ∈ (sur.foldl (brsStep read) st).1, seg.text ≠ [] := by
  intro sur
  induction sur with
  | nil => intro st h; simpa using h
  | cons c rest ih =>
    intro st h
    rw [List.foldl_cons]
    exact ih (brsStep read st c) (brsStep_text_nonempty read st c h)

/-- One loop iteration never moves the reading cursor past the reading's length. -/
theorem brsStep_ridx_le (read : List Nat)
    (st : List RubySegment × List Nat × Nat) (c : Nat)
    (h : st.2.2 ≤ read.length) : (brsStep read st c).2.2 ≤ read.length := by
  obtain ⟨segs, buf, i⟩ := st
  simp only [brsStep]
  split
  · rename_i hcond
    split
    · rename_i p hp
      have hlt := position_lt hp
      rw [List.length_drop] at hlt
      dsimp only
      dsimp only at h
      omega
    · exact h
  · exact h

theorem brsScan_ridx_le (read : List Nat) :
    ∀ (sur : List Nat) (st : List RubySegment × List Nat × Nat),
      st.2.2 ≤ read.length → (sur.foldl (brsStep read) st).2.2 ≤ read.length := by
  intro sur
  induction sur with
  | nil => intro st h; simpa using h
  | cons c rest ih =>
    intro st h
    rw [List.foldl_cons]
    exact ih (brsStep read st c) (brsStep_ridx_le read st c h)

/-- The bound check in front of the anchor flush is always true: the guarded and the
unguarded loop bodies coincide on every state and character. -/
theorem brsStep_eq_unguarded (read : List Nat)
    (st : List RubySegment × List Nat × Nat) (c : Nat) :
    brsStep read st c = brsStepU read st c := by
  obtain ⟨segs, buf, i⟩ := st
  simp only [brsStep, brsStepU]
  split
  · rename_i hcond
    split
    · rename_i p hp
      have hlt := position_lt hp
      rw [List.length_drop] at hlt
      have hguard : i + p ≤ read.length := by omega
      simp [hguard]
    · rfl
  · rfl

/-- The checked loop body never signals an out-of-bounds read: it agrees with the plain
loop body on every state and character. -/
theorem brsStepC_eq (read : List Nat)
    (st : List RubySegment × List Nat × Nat) (c : Nat) :
    brsStepC read st c = some (brsStep read st c) := by
  obtain ⟨segs, buf, i⟩ := st
  by_cases hcond : c ≠ hira_to_kata c ∧ i < read.length
  · have hsuffix : suffixSlice read i = some (read.drop i) := by
      rw [suffixSlice, if_pos (Nat.le_of_lt hcond.2)]
    cases hp : position (hira_to_kata c) (read.drop i) with
    | none => simp [brsStep, brsStepC, hcond, hsuffix, hp]
    | some p =>
      by_cases hbuf : buf ≠ []
      · have hlt := position_lt hp
        rw [List.length_drop] at hlt
        have hguard : i + p ≤ read.length := by omega
        have hslice : checkedSlice read i (i + p) =
            some (listSlice read i (i + p)) := by
          rw [checkedSlice, if_pos ⟨Nat.le_add_right i p, hguard⟩]
        simp [brsStep, brsStepC, hcond, hsuffix, hp, hbuf, hguard, hslice]
      · simp [brsStep, brsStepC, hcond, hsuffix, hp, hbuf]
  · simp [brsStep, brsStepC, hcond]

theorem foldlM_brsStepC (read : List Nat) :
    ∀ (sur : List Nat) (st : List RubySegment × List Nat × Nat),
      sur.foldlM (brsStepC read) st = some (sur.foldl (brsStep read) st) := by
  intro sur
  induction sur with
  | nil => intro st; rfl
  | cons c rest ih =>
    intro st
    rw [List.foldlM_cons, brsStepC_eq]
    simpa using ih (brsStep read st c)

/-- The fully checked `build_ruby_segments` never signals an out-of-bounds read: it
returns `some` of the plain result on every input. -/
theorem brsScan_eq (read sur : List Nat) :
    List.foldl (brsStep read) ([], [], 0) sur = brsScan read sur := rfl

theorem build_checked_eq (surface reading : List Nat) :
    build_ruby_segments_checked surface reading =
      some (build_ruby_segments surface reading) := by
  unfold build_ruby_segments_checked build_ruby_segments
  split
  · rfl
  · rw [foldlM_brsStepC, brsScan_eq]
    dsimp only
    by_cases hbuf : (brsScan reading surface).2.1 ≠ []
    · by_cases hidx : (brsScan reading surface).2.2 < reading.length
      · have hsuffix : suffixSlice reading (brsScan reading surface).2.2 =
            some (reading.drop (brsScan reading surface).2.2) := by
          rw [suffixSlice, if_pos (Nat.le_of_lt hidx)]
        rw [if_pos hbuf, if_pos hidx, hsuffix, if_pos hbuf, if_pos hidx]
      · rw [if_pos hbuf, if_neg hidx, if_pos hbuf, if_neg hidx]
    · rw [if_neg hbuf, if_neg hbuf]

/-- C8: `build_ruby_segments(s, s) = [{text: s, ruby: ""}]` and
`build_ruby_segments(s, "*") = [{text: s, ruby: ""}]` for every string `s`: an identity
reading and the no-reading sentinel both take the single-segment fast path. -/
theorem fast_path_identity_and_sentinel (s : List Nat) :
    build_ruby_segments s s = [⟨s, []⟩] ∧ build_ruby_segments s starS = [⟨s, []⟩] := by
  constructor <;> simp [build_ruby_segments]

/-- C9 (amended): every RubySegment produced by `build_ruby_segments` for a NON-EMPTY
surface string and any reading string has a non-empty `text` field.  (As stated over
every surface string the claim fails: see the counterexample with the empty surface.) -/
theorem segment_text_nonempty (surface reading : List Nat) (h : surface ≠ []) :
    ∀ seg ∈ build_ruby_segments surface reading, seg.text ≠ [] := by
  unfold build_ruby_segments
  split
  · intro seg hseg
    rcases List.mem_singleton.mp hseg with rfl
    exact h
  · dsimp only
    have hscan := brsScan_text_nonempty reading surface ([], [], 0) (by simp)
    rw [brsScan_eq] at hscan
    split
    · rename_i hbuf
      intro seg hseg
      rcases List.mem_append.mp hseg with hseg | hseg
      · exact hscan seg hseg
      · rcases List.mem_singleton.mp hseg with rfl
        exact hbuf
    · exact hscan

/-- C9 fails as stated: for the empty surface and the `"*"` sentinel reading the fast
path returns one segment whose `text` is empty. -/
theorem segment_text_nonempty_counterexample :
    ¬ ∀ (surface reading : List Nat),
        ∀ seg ∈ build_ruby_segments surface reading, seg.text ≠ [] := by
  intro h
  exact h [] starS ⟨[], []⟩ (by decide) rfl

theorem segment_text_nonempty_witness :
    [0x6F22] ≠ ([] : List Nat) ∧
      ∀ seg ∈ build_ruby_segments [0x6F22] [0x30A2], seg.text ≠ [] :=
  ⟨by decide, segment_text_nonempty [0x6F22] [0x30A2] (by decide)⟩

/-- C10: the reading cursor never exceeds the reading's character count: every loop
iteration preserves `r_idx ≤ read_chars.len()` (after an anchor match
`r_idx + pos_in_remaining + 1` is still at most the length), the guard
`end_idx <= read_chars.len()` in front of the anchor flush is always true — the guarded
and the unguarded loop bodies agree on every state — the cursor after a full scan is in
bounds, and the fully checked function never reads out of bounds on any input pair. -/
theorem reading_cursor_in_bounds (read : List Nat)
    (st : List RubySegment × List Nat × Nat) (c : Nat)
    (surface reading : List Nat) (h : st.2.2 ≤ read.length) :
    (brsStep read st c).2.2 ≤ read.length ∧
      brsStep read st c = brsStepU read st c ∧
      (brsScan reading surface).2.2 ≤ reading.length ∧
      build_ruby_segments_checked surface reading =
        some (build_ruby_segments surface reading) :=
  ⟨brsStep_ridx_le read st c h, brsStep_eq_unguarded read st c,
    by rw [← brsScan_eq]; exact brsScan_ridx_le reading surface ([], [], 0) (by simp),
    build_checked_eq surface reading⟩

theorem reading_cursor_in_bounds_witness :
    (([], [], 0) : List RubySegment × List Nat × Nat).2.2 ≤
        ([0x30BF, 0x30D9] : List Nat).length ∧
      ((brsStep [0x30BF, 0x30D9] ([], [], 0) 0x3079).2.2 ≤
          ([0x30BF, 0x30D9] : List Nat).length ∧
        brsStep [0x30BF, 0x30D9] ([], [], 0) 0x3079 =
          brsStepU [0x30BF, 0x30D9] ([], [], 0) 0x3079 ∧
        (brsScan [0x30BF, 0x30D9, 0x30BF] [0x98DF, 0x3079, 0x305F]).2.2 ≤
          ([0x30BF, 0x30D9, 0x30BF] : List Nat).length ∧
        build_ruby_segments_checked [0x98DF, 0x3079, 0x305F] [0x30BF, 0x30D9, 0x30BF] =
          some (build_ruby_segments [0x98DF, 0x3079, 0x305F] [0x30BF, 0x30D9, 0x30BF])) :=
  ⟨by decide, reading_cursor_in_bounds [0x30BF, 0x30D9] ([], [], 0) 0x3079
    [0x98DF, 0x3079, 0x305F] [0x30BF, 0x30D9, 0x30BF] (by decide)⟩

/-- C5: when the reading is exhausted by the scan — the reachable instance of "a
computed kanji-run reading slice end-index would exceed the reading's length", since
the anchor-flush end-index provably never exceeds it (the guard is always true, see
`reading_cursor_in_bounds`) — the function neither panics nor reads out of bounds (the
checked model returns `some` of the plain result), and the pending buffer is still
flushed as a final degraded segment whose text is preserved and whose ruby is
omitted. -/
theorem short_reading_degrades_gracefully (surface reading : List Nat)
    (h1 : reading ≠ starS) (h2 : surface ≠ reading)
    (hb : (brsScan reading surface).2.1 ≠ [])
    (hr : reading.length ≤ (brsScan reading surface).2.2) :
    build_ruby_segments_checked surface reading =
        some (build_ruby_segments surface reading) ∧
      build_ruby_segments surface reading =
        (brsScan reading surface).1 ++ [⟨(brsScan reading surface).2.1, []⟩] := by
  refine ⟨build_checked_eq surface reading, ?_⟩
  unfold build_ruby_segments
  rw [if_neg (not_or.mpr ⟨h1, h2⟩)]
  dsimp only
  rw [if_pos hb, if_neg (by omega)]

theorem short_reading_degrades_gracefully_witness :
    (([0x30A2] : List Nat) ≠ starS ∧ ([0x3042, 0x6F22] : List Nat) ≠ [0x30A2] ∧
        (brsScan [0x30A2] [0x3042, 0x6F22]).2.1 ≠ [] ∧
        ([0x30A2] : List Nat).length ≤ (brsScan [0x30A2] [0x3042, 0x6F22]).2.2) ∧
      build_ruby_segments_checked [0x3042, 0x6F22] [0x30A2] =
          some (build_ruby_segments [0x3042, 0x6F22] [0x30A2]) ∧
        build_ruby_segments [0x3042, 0x6F22] [0x30A2] =
          (brsScan [0x30A2] [0x3042, 0x6F22]).1 ++
            [⟨(brsScan [0x30A2] [0x3042, 0x6F22]).2.1, []⟩] :=
  ⟨⟨by decide, by decide, by decide, by decide⟩,
    short_reading_degrades_gracefully [0x3042, 0x6F22] [0x30A2] (by decide) (by decide)
      (by decide) (by decide)⟩

/-- Splitting a drop at an intermediate index: the text from `a` on is the slice
`[a, b)` followed by the text from `b` on. -/
theorem drop_eq_slice_append (l : List Nat) (a b : Nat) (hab : a ≤ b) :
    l.drop a = listSlice l a b ++ l.drop b := by
  unfold listSlice
  conv_lhs => rw [← List.take_append_drop (b - a) (l.drop a)]
  congr 1
  rw [List.drop_drop]
  congr 1
  omega

theorem surfaceConcat_append (a b : List TokenInfo) :
    surfaceConcat (a ++ b) = surfaceConcat a ++ surfaceConcat b := by
  simp [surfaceConcat]

theorem surfaceConcat_cons (x : TokenInfo) (l : List TokenInfo) :
    surfaceConcat (x :: l) = x.surface ++ surfaceConcat l := by
  simp [surfaceConcat]

/-- Interface-contract coverage of the shared token/gap interleaving loop: assuming
ordered in-bounds tokens whose surfaces equal the slices they cover, the emitted
surfaces concatenate to the unconsumed text, and every emitted annotation is either a
token annotation or a gap annotation of the fixed Whitespace shape. -/
theorem annotateLoop_cover (mk : Token → TokenInfo) (gd : List (List Nat))
    (text : List Nat) (hmk : ∀ t, (mk t).surface = t.surface) :
    ∀ (tokens : List Token) (c : Nat), chainOKb text c tokens = true →
      surfaceConcat (annotateLoop mk gd text c tokens) = text.drop c ∧
      ∀ a ∈ annotateLoop mk gd text c tokens,
        (∃ t ∈ tokens, a = mk t) ∨ ∃ g, a = ⟨g, gd, [⟨g, []⟩]⟩ := by
  intro tokens
  induction tokens with
  | nil =>
    intro c _
    rw [annotateLoop]
    split
    · refine ⟨by simp [surfaceConcat], ?_⟩
      intro a ha
      rcases List.mem_singleton.mp ha with rfl
      exact Or.inr ⟨text.drop c, rfl⟩
    · rename_i hc
      refine ⟨?_, by simp⟩
      rw [List.drop_eq_nil_of_le (by omega)]
      simp [surfaceConcat]
  | cons t ts ih =>
    intro c hchain
    simp only [chainOKb, Bool.and_eq_true, decide_eq_true_eq, beq_iff_eq] at hchain
    obtain ⟨⟨⟨⟨h1, h2⟩, h3⟩, h4⟩, h5⟩ := hchain
    obtain ⟨ihcov, ihcls⟩ := ih t.byte_end h5
    rw [annotateLoop]
    constructor
    · rw [surfaceConcat_append, surfaceConcat_cons, ihcov, hmk t, h4,
        drop_eq_slice_append text c t.byte_start h1,
        drop_eq_slice_append text t.byte_start t.byte_end h2]
      split
      · simp [surfaceConcat, List.append_assoc]
      · rename_i hgap
        have hce : c = t.byte_start := by omega
        subst hce
        simp [surfaceConcat, listSlice]
    · intro a ha
      rcases List.mem_append.mp ha with ha | ha
      · split at ha
        · rcases List.mem_singleton.mp ha with rfl
          exact Or.inr ⟨listSlice text c t.byte_start, rfl⟩
        · cases ha
      · rcases List.mem_cons.mp ha with rfl | ha
        · exact Or.inl ⟨t, List.mem_cons_self t ts, rfl⟩
        · rcases ihcls a ha with ⟨u, hu, rfl⟩ | hgap
          · exact Or.inl ⟨u, List.mem_cons_of_mem t hu, rfl⟩
          · exact Or.inr hgap

/-- C4 (amended): for the two plugin `analyze` functions, under the tokenizer interface
contract (ordered in-bounds tokens whose `surface` equals the text slice they cover),
concatenating the `surface` field of every emitted annotation (tokenizer tokens plus
synthesized gap tokens) reproduces the input text exactly, and every emitted annotation
is either the annotation of a tokenizer token or a gap annotation whose metadata fields
are all the `"*"` sentinel except field 0 set to `"Whitespace"`, with a single ruby
segment whose text is the gap text and whose ruby is empty.  (The root crate's
`analyze`, also cited by the claim, synthesizes no gap annotations and violates the
claim: see the counterexample.) -/
theorem analyze_coverage (text : List Nat) (tokens : List Token)
    (h : chainOKb text 0 tokens = true) :
    (surfaceConcat (ipadic_annotations text tokens) = text ∧
      ∀ a ∈ ipadic_annotations text tokens,
        (∃ t ∈ tokens, a = ipadic_token_info t) ∨
          ∃ g, a = ⟨g, gapDetails 9, [⟨g, []⟩]⟩) ∧
    (surfaceConcat (unidic_annotations text tokens) = text ∧
      ∀ a ∈ unidic_annotations text tokens,
        (∃ t ∈ tokens, a = unidic_token_info t) ∨
          ∃ g, a = ⟨g, gapDetails 17, [⟨g, []⟩]⟩) := by
  have hi := annotateLoop_cover ipadic_token_info (gapDetails 9) text
    (fun t => rfl) tokens 0 h
  have hu := annotateLoop_cover unidic_token_info (gapDetails 17) text
    (fun t => rfl) tokens 0 h
  simpa [ipadic_annotations, unidic_annotations] using ⟨hi, hu⟩

/-- C4 fails as stated for the root crate's `analyze` (`src/lib.rs`, cited by the
claim): it synthesizes no gap annotations, so a well-formed tokenizer output that
leaves the first text unit uncovered yields concatenated surfaces that do not reproduce
the input, and no Whitespace annotation is emitted for the uncovered range. -/
theorem analyze_coverage_counterexample :
    chainOKb [32, 97] 0 [⟨1, 2, [97], []⟩] = true ∧
      surfaceConcatRoot (root_analyze_annotations [⟨1, 2, [97], []⟩]) ≠ [32, 97] :=
  ⟨by decide, by decide⟩

theorem analyze_coverage_witness :
    chainOKb [32, 97] 0 [⟨1, 2, [97], []⟩] = true ∧
      ((surfaceConcat (ipadic_annotations [32, 97] [⟨1, 2, [97], []⟩]) = [32, 97] ∧
        ∀ a ∈ ipadic_annotations [32, 97] [⟨1, 2, [97], []⟩],
          (∃ t ∈ [(⟨1, 2, [97], []⟩ : Token)], a = ipadic_token_info t) ∨
            ∃ g, a = ⟨g, gapDetails 9, [⟨g, []⟩]⟩) ∧
      (surfaceConcat (unidic_annotations [32, 97] [⟨1, 2, [97], []⟩]) = [32, 97] ∧
        ∀ a ∈ unidic_annotations [32, 97] [⟨1, 2, [97], []⟩],
          (∃ t ∈ [(⟨1, 2, [97], []⟩ : Token)], a = unidic_token_info t) ∨
            ∃ g, a = ⟨g, gapDetails 17, [⟨g, []⟩]⟩)) :=
  ⟨by decide, analyze_coverage [32, 97] [⟨1, 2, [97], []⟩] (by decide)⟩

/-- C7: each of the four failure kinds of the plugin `analyze` — malformed request
payload, user-dictionary compilation failure, tokenization failure, response-encoding
failure — returns, through the same byte channel (`List Nat` return type) as success,
exactly the plain text `"Error: "` followed by the kind's fixed cause message and the
collaborator's error text; in each case this error string is the whole response, so no
partial result is produced. -/
theorem error_reporting (parse : Except (List Nat) InputParams)
    (build_ud : List Nat → Except (List Nat) Unit)
    (tokenize : List Nat → Except (List Nat) (List Token))
    (encode : List TokenInfo → Except (List Nat) (List Nat)) :
    (∀ e, parse = Except.error e →
        analyze_model parse build_ud tokenize encode =
          errMark ++ (msgInvalidJson ++ e)) ∧
      (∀ p e, parse = Except.ok p → userDictOutcome build_ud p = Except.error e →
        analyze_model parse build_ud tokenize encode =
          errMark ++ (msgUserDict ++ e)) ∧
      (∀ p e, parse = Except.ok p → userDictOutcome build_ud p = Except.ok () →
        tokenize p.text = Except.error e →
        analyze_model parse build_ud tokenize encode =
          errMark ++ (msgTokenize ++ e)) ∧
      (∀ p toks e, parse = Except.ok p → userDictOutcome build_ud p = Except.ok () →
        tokenize p.text = Except.ok toks →
        encode (annotateLoop ipadic_token_info (gapDetails 9) p.text 0 toks) =
          Except.error e →
        analyze_model parse build_ud tokenize encode =
          errMark ++ (msgSerialize ++ e)) := by
  refine ⟨?_, ?_, ?_, ?_⟩
  · rintro e rfl
    simp [analyze_model]
  · rintro p e rfl h2
    simp [analyze_model, h2]
  · rintro p e rfl h2 h3
    simp [analyze_model, h2, h3]
  · rintro p toks e rfl h2 h3 h4
    simp [analyze_model, h2, h3, h4]

theorem error_reporting_witness :
    (Except.error [98] : Except (List Nat) InputParams) = Except.error [98] ∧
      analyze_model (Except.error [98]) (fun _ => Except.ok ())
          (fun _ => Except.ok []) (fun _ => Except.ok []) =
        errMark ++ (msgInvalidJson ++ [98]) :=
  ⟨rfl, (error_reporting (Except.error [98]) (fun _ => Except.ok ())
    (fun _ => Except.ok []) (fun _ => Except.ok [])).1 [98] rfl⟩

/-- C2 (amended): in the unidic plugin's `analyze`, for every surface string containing
no kanji character and any detail fields, the token's ruby output is exactly the single
segment `[{text: surface, ruby: ""}]`.  (The ipadic plugin's `analyze` applies no such
gate: see the counterexample.) -/
theorem kana_only_suppression_unidic (surface : List Nat) (details : List (List Nat))
    (h : contains_kanji surface = false) :
    unidic_token_ruby surface details = [⟨surface, []⟩] := by
  simp [unidic_token_ruby, h]

/-- C2 fails as stated for the ipadic `analyze` (cited by the claim): the kana-only
surface "あい" with dictionary reading field 7 = "アー" receives two segments, the
second with non-empty ruby, instead of `[{text: surface, ruby: ""}]`. -/
theorem kana_only_suppression_ipadic_counterexample :
    contains_kanji [0x3042, 0x3044] = false ∧
      ipadic_token_ruby [0x3042, 0x3044]
          [starS, starS, starS, starS, starS, starS, starS, [0x30A2, 0x30FC]] ≠
        [⟨[0x3042, 0x3044], []⟩] :=
  ⟨by decide, by decide⟩

theorem kana_only_suppression_unidic_witness :
    contains_kanji [0x30B3, 0x30F3] = false ∧
      unidic_token_ruby [0x30B3, 0x30F3] [] = [⟨[0x30B3, 0x30F3], []⟩] :=
  ⟨by decide, kana_only_suppression_unidic [0x30B3, 0x30F3] [] (by decide)⟩

/-- C3 (amended): the unidic reading selector never consults the conjugation-type
field; it unconditionally prefers field 9 (phonological surface) whenever that field is
present and not the `"*"` sentinel, and otherwise falls back to field 6 (lemma
reading), defaulting to the sentinel when field 6 is also absent. -/
theorem unidic_reading_selector (details : List (List Nat)) :
    (∀ v, details.get? 9 = some v → v ≠ starS → unidic_select_reading details = v) ∧
      ((details.get? 9 = none ∨ details.get? 9 = some starS) →
        unidic_select_reading details = (details.get? 6).getD starS) := by
  constructor
  · intro v h9 hv
    unfold unidic_select_reading
    rw [h9]
    simp [Option.filter, hv]
  · rintro (h9 | h9) <;>
      (unfold unidic_select_reading; rw [h9]; simp [Option.filter])

/-- C3 fails as stated: with the conjugation-type field (field 4 of the 17-field
layout) equal to the "not applicable" sentinel — an uninflected word, for which the
claim prescribes preferring the lemma reading (field 6) — the code still selects the
phonological-surface field 9; the spec-modelled selector returns the lemma reading. -/
theorem unidic_reading_selector_counterexample :
    (([starS, starS, starS, starS, starS, starS, [0x30A2], starS, starS,
          [0x30A4]] : List (List Nat)).get? 4).getD starS = starS ∧
      unidic_select_reading
          [starS, starS, starS, starS, starS, starS, [0x30A2], starS, starS,
            [0x30A4]] = [0x30A4] ∧
      unidic_select_reading_spec
          [starS, starS, starS, starS, starS, starS, [0x30A2], starS, starS,
            [0x30A4]] = [0x30A2] ∧
      ([0x30A4] : List Nat) ≠ [0x30A2] :=
  ⟨by decide, by decide, by decide, by decide⟩

theorem unidic_reading_selector_witness :
    unidic_select_reading [starS, starS, starS, starS, starS, starS, [0x30A2], starS,
      starS, [0x30A4]] = [0x30A4] :=
  (unidic_reading_selector _).1 [0x30A4] rfl (by decide)

/-- C6: `reconstruct_orthography "行こう" "イコー" = "イコウ"`: the trailing long-vowel
mark `ー` aligned against surface `う` is replaced by `ウ`, and the phonetic head `イコ`
up to the kanji anchor `行` is preserved unchanged.  (Codepoints: 行 U+884C, こ U+3053,
う U+3046, イ U+30A4, コ U+30B3, ー U+30FC, ウ U+30A6.) -/
theorem long_vowel_reconstruction :
    reconstruct_orthography [0x884C, 0x3053, 0x3046] [0x30A4, 0x30B3, 0x30FC] =
      [0x30A4, 0x30B3, 0x30A6] := by
  decide

end AutoJrubby
